import Mathlib

/-!
# A verification development for the Hearts card-game engine

This file gives a shallow embedding, in Lean 4, of the Hearts engine
(`packages/hearts/src`: `scoring.ts`, `game.ts` and the trick module), together
with theorems checking the engine's specification claims against the code.

Modelling conventions:
* TypeScript `throw` sites become `Except HeartsError _` results, one error
  constructor per distinct failure condition.
* JavaScript numbers are modelled as `Nat` (the engine only ever adds
  non-negative integers and compares them).
* `Array.prototype.sort` with the suit/rank comparator is modelled by a stable
  insertion sort by the same comparator (only the ordering behaviour of the
  sort is observable to the engine).
* A TypeScript non-null assertion `x!` that the code applies to
  `currentTrick.leadingSuit` is modelled by matching on the `Option`; in
  JavaScript a `null` suit compares unequal to every card suit, which the
  embedding reproduces (see `getValidPlays`).
* `Array.prototype.findIndex` returning `-1` when no element matches is
  modelled by `List.findIdx`, which returns the list's length in that case;
  both values denote an out-of-range index, making the subsequent lookup fail.
* The deck shuffle is an external capability of the card-core package
  (out of scope, per the spec); functions that consume a freshly shuffled deck
  take the deck as an explicit argument.
-/

/-- Card suits, from the card-core package (`Suit` enum). -/
inductive Suit where
  | hearts
  | diamonds
  | clubs
  | spades
deriving DecidableEq, Repr, Fintype

/-- Card ranks, from the card-core package (`Rank` enum). -/
inductive Rank where
  | ace
  | two
  | three
  | four
  | five
  | six
  | seven
  | eight
  | nine
  | ten
  | jack
  | queen
  | king
deriving DecidableEq, Repr, Fintype

/-- `HeartsCard`: the base card value `{id, rank, suit, isFaceUp}` (the
optional `isSelected` UI field is never read by the engine and is omitted). -/
structure HeartsCard where
  id : String
  rank : Rank
  suit : Suit
  isFaceUp : Bool
deriving DecidableEq, Repr

/-- `GamePhase` enum from `types.ts`. -/
inductive GamePhase where
  | dealing
  | passing
  | playing
  | handComplete
  | gameOver
deriving DecidableEq, Repr

/-- `PassDirection` enum from `types.ts`. -/
inductive PassDirection where
  | left
  | right
  | across
  | none
deriving DecidableEq, Repr

/-- `Player` record from `types.ts`. -/
structure Player where
  id : String
  name : String
  hand : List HeartsCard
  tricksTaken : List (List HeartsCard)
  score : Nat
  handScore : Nat
  selectedCards : List String
  isReady : Bool
deriving DecidableEq, Repr

/-- One `{playerId, card}` entry of a trick. -/
structure TrickCard where
  playerId : String
  card : HeartsCard
deriving DecidableEq, Repr

/-- `Trick` record from `types.ts`. -/
structure Trick where
  cards : List TrickCard
  leadingSuit : Option Suit
  winnerId : Option String
deriving DecidableEq, Repr

/-- `GameState` record from `types.ts`. -/
structure GameState where
  phase : GamePhase
  players : List Player
  currentPlayerIndex : Nat
  currentTrick : Trick
  completedTricks : List Trick
  passDirection : PassDirection
  heartsBroken : Bool
  firstTrick : Bool
  handNumber : Nat
  deck : List HeartsCard
deriving DecidableEq, Repr

/-- The engine's failure conditions: each distinct `throw` site of the source
is mapped to one constructor (named as in the spec's error-handling section). -/
inductive HeartsError where
  | invalidPlayerCount
  | wrongPhase
  | playerNotFound
  | cardNotInHand
  | tooManySelected
  | playersNotReady
  | notYourTurn
  | illegalPlay
  | trickNotComplete
  | noTrickWinner
deriving DecidableEq, Repr

deriving instance DecidableEq for Except

/-! ## Scoring engine (`scoring.ts`) -/

/-- `getPointValue`: Hearts are worth 1, the Queen of Spades 13, all else 0. -/
def getPointValue (card : HeartsCard) : Nat :=
  if card.suit = Suit.hearts then 1
  else if card.suit = Suit.spades ∧ card.rank = Rank.queen then 13
  else 0

/-- `calculateHandScore`: accumulate the point value of every card of every
trick taken (the source's nested `for` loops become nested folds). -/
def calculateHandScore (tricksTaken : List (List HeartsCard)) : Nat :=
  tricksTaken.foldl (fun total trick =>
    trick.foldl (fun t card => t + getPointValue card) total) 0

/-- `checkShootMoon`: the first player whose hand score is exactly 26 (the
source's `for` loop with early `return` is `List.find?`). -/
def checkShootMoon (players : List Player) : Option String :=
  (players.find? (fun player => decide (calculateHandScore player.tricksTaken = 26))).map
    (fun player => player.id)

/-- `applyScores`: recompute `handScore` for every player, apply the
shoot-the-moon rule, and move to `GameOver` when anyone reaches 100. -/
def applyScores (state : GameState) : GameState :=
  let players := state.players.map (fun player =>
    { player with handScore := calculateHandScore player.tricksTaken })
  let moonShooter := checkShootMoon players
  let updatedPlayers := players.map (fun player =>
    match moonShooter with
    | some shooterId =>
      if player.id = shooterId then
        { player with score := player.score, handScore := 0 }
      else
        { player with score := player.score + 26, handScore := 26 }
    | none => { player with score := player.score + player.handScore })
  let gameOver := updatedPlayers.any (fun p => decide (100 ≤ p.score))
  { state with
    players := updatedPlayers,
    phase := if gameOver then GamePhase.gameOver else GamePhase.handComplete }

/-! ## Trick engine (`trick.ts`) -/

/-- `canFollowSuit`: does the hand hold any card of the given suit. -/
def canFollowSuit (hand : List HeartsCard) (suit : Suit) : Bool :=
  hand.any (fun card => decide (card.suit = suit))

/-- `canLeadHearts`: hearts may be led once broken, or when the hand holds
only Hearts. -/
def canLeadHearts (state : GameState) (hand : List HeartsCard) : Bool :=
  if state.heartsBroken then true
  else hand.all (fun card => decide (card.suit = Suit.hearts))

/-- `getValidPlays`: the legal-play computation.  The source reads
`currentTrick.leadingSuit!` and compares card suits against it; when the suit
is absent (`null`), every comparison is false in JavaScript, which the
`Option` match reproduces. -/
def getValidPlays (state : GameState) (playerId : String) : List HeartsCard :=
  match state.players.find? (fun p => decide (p.id = playerId)) with
  | none => []
  | some player =>
    let hand := player.hand
    if state.currentTrick.cards.length = 0 then
      if state.firstTrick then
        match hand.find? (fun c => decide (c.rank = Rank.two ∧ c.suit = Suit.clubs)) with
        | some twoOfClubs => [twoOfClubs]
        | none => []
      else if ¬ canLeadHearts state hand then
        let nonHearts := hand.filter (fun c => decide (c.suit ≠ Suit.hearts))
        if nonHearts.length > 0 then nonHearts else hand
      else hand
    else
      let breakingSuitPlays : List HeartsCard :=
        if state.firstTrick then
          let forbidden := hand.filter (fun c =>
            decide (c.suit = Suit.hearts ∨ (c.suit = Suit.spades ∧ c.rank = Rank.queen)))
          let allowed := hand.filter (fun c =>
            decide (¬ (c.suit = Suit.hearts ∨ (c.suit = Suit.spades ∧ c.rank = Rank.queen))))
          if allowed.length > 0 then allowed else forbidden
        else hand
      match state.currentTrick.leadingSuit with
      | some leadingSuit =>
        if canFollowSuit hand leadingSuit then
          hand.filter (fun c => decide (c.suit = leadingSuit))
        else breakingSuitPlays
      | none => breakingSuitPlays

/-- `isValidPlay`: membership (by card id) in `getValidPlays`. -/
def isValidPlay (state : GameState) (playerId : String) (card : HeartsCard) : Bool :=
  (getValidPlays state playerId).any (fun c => decide (c.id = card.id))

/-- `getRankOrder`: numeric rank used to compare cards (Ace high). -/
def getRankOrder (rank : Rank) : Nat :=
  match rank with
  | Rank.two => 2
  | Rank.three => 3
  | Rank.four => 4
  | Rank.five => 5
  | Rank.six => 6
  | Rank.seven => 7
  | Rank.eight => 8
  | Rank.nine => 9
  | Rank.ten => 10
  | Rank.jack => 11
  | Rank.queen => 12
  | Rank.king => 13
  | Rank.ace => 14

/-- The scan of `determineTrickWinner`: starting from the first stored card,
replace the running winner by any later card of the leading suit of strictly
higher rank (the source's `for` loop from index 1). -/
def trickWinnerScan (leadingSuit : Suit) :
    List TrickCard → TrickCard × Nat → TrickCard × Nat
  | [], acc => acc
  | tc :: rest, acc =>
    if tc.card.suit = leadingSuit ∧ acc.2 < getRankOrder tc.card.rank then
      trickWinnerScan leadingSuit rest (tc, getRankOrder tc.card.rank)
    else
      trickWinnerScan leadingSuit rest acc

/-- `determineTrickWinner`: `null` on an empty trick or a missing leading
suit; otherwise the scan above, seeded with the first stored card. -/
def determineTrickWinner (trick : Trick) : Option String :=
  if trick.cards.length = 0 then none
  else
    match trick.leadingSuit with
    | none => none
    | some leadingSuit =>
      match trick.cards with
      | [] => none
      | first :: rest =>
        some (trickWinnerScan leadingSuit rest (first, getRankOrder first.card.rank)).1.playerId

/-- `trickContainsHearts`. -/
def trickContainsHearts (trick : Trick) : Bool :=
  trick.cards.any (fun c => decide (c.card.suit = Suit.hearts))

/-- `trickContainsPoints`. -/
def trickContainsPoints (trick : Trick) : Bool :=
  trick.cards.any (fun c => decide (getPointValue c.card > 0))

/-! ## Game state machine (`game.ts`) -/

/-- Suit position in the display sort order `[Clubs, Diamonds, Spades, Hearts]`. -/
def suitSortIdx (suit : Suit) : Nat :=
  match suit with
  | Suit.clubs => 0
  | Suit.diamonds => 1
  | Suit.spades => 2
  | Suit.hearts => 3

/-- Rank position in the display sort order `[2 .. 10, J, Q, K, A]`. -/
def rankSortIdx (rank : Rank) : Nat :=
  match rank with
  | Rank.two => 0
  | Rank.three => 1
  | Rank.four => 2
  | Rank.five => 3
  | Rank.six => 4
  | Rank.seven => 5
  | Rank.eight => 6
  | Rank.nine => 7
  | Rank.ten => 8
  | Rank.jack => 9
  | Rank.queen => 10
  | Rank.king => 11
  | Rank.ace => 12

/-- The hand comparator of `game.ts` (suit order first, rank order second),
as a `≤`-style test. -/
def cardLE (a b : HeartsCard) : Bool :=
  if a.suit ≠ b.suit then decide (suitSortIdx a.suit ≤ suitSortIdx b.suit)
  else decide (rankSortIdx a.rank ≤ rankSortIdx b.rank)

/-- Stable insertion step for `sortHand`. -/
def insertCard (c : HeartsCard) : List HeartsCard → List HeartsCard
  | [] => [c]
  | d :: rest => if cardLE c d then c :: d :: rest else d :: insertCard c rest

/-- The hand sort of `game.ts` (`Array.prototype.sort` with the suit/rank
comparator), modelled as a stable insertion sort by the same ordering. -/
def sortHand : List HeartsCard → List HeartsCard
  | [] => []
  | c :: rest => insertCard c (sortHand rest)

/-- Map with the element index, mirroring JavaScript's
`array.map((x, index) => ...)`. -/
def mapWithIdx (f : Nat → α → β) : Nat → List α → List β
  | _, [] => []
  | i, a :: rest => f i a :: mapWithIdx f (i + 1) rest

/-- `getPassDirection`: the `[Left, Right, Across, None]` cycle indexed by
`handNumber % 4`. -/
def getPassDirection (handNumber : Nat) : PassDirection :=
  match handNumber % 4 with
  | 0 => PassDirection.left
  | 1 => PassDirection.right
  | 2 => PassDirection.across
  | _ => PassDirection.none

/-- `createPlayers`: exactly 4 names required; player `index` gets id
`player-index`. -/
def createPlayers (playerNames : List String) : Except HeartsError (List Player) :=
  if playerNames.length ≠ 4 then Except.error HeartsError.invalidPlayerCount
  else Except.ok (mapWithIdx (fun index name =>
    { id := "player-" ++ toString index,
      name := name,
      hand := [],
      tricksTaken := [],
      score := 0,
      handScore := 0,
      selectedCards := [],
      isReady := false }) 0 playerNames)

/-- `createGame`: a fresh `Dealing`-phase state.  The source draws the deck
from `createHeartsDeck()` (an external shuffle); the shuffled deck is passed
in as an argument here. -/
def createGame (playerNames : List String) (shuffledDeck : List HeartsCard) :
    Except HeartsError GameState :=
  match createPlayers playerNames with
  | Except.error e => Except.error e
  | Except.ok players =>
    Except.ok
      { phase := GamePhase.dealing,
        players := players,
        currentPlayerIndex := 0,
        currentTrick := { cards := [], leadingSuit := none, winnerId := none },
        completedTricks := [],
        passDirection := getPassDirection 0,
        heartsBroken := false,
        firstTrick := true,
        handNumber := 0,
        deck := shuffledDeck }

/-- The sender map of `executePass`: which player index sends cards to the
given index, per pass direction. -/
def getSender (direction : PassDirection) (index : Nat) : Nat :=
  match direction with
  | PassDirection.left => (index + 3) % 4
  | PassDirection.right => (index + 1) % 4
  | PassDirection.across => (index + 2) % 4
  | PassDirection.none => index

/-- The card values a player is passing: their selected ids looked up in
their hand (the source's `find(...)!`; an id absent from the hand would be
`undefined` in JavaScript and is skipped here — callers establish that every
selected id is in the hand). -/
def passedCardsOf (player : Player) : List HeartsCard :=
  player.selectedCards.filterMap (fun cardId =>
    player.hand.find? (fun c => decide (c.id = cardId)))

/-- `executePass`: simultaneous 3-card exchange between the four players,
computed from the pre-pass selections. -/
def executePass (state : GameState) : Except HeartsError GameState :=
  if state.phase ≠ GamePhase.passing then Except.error HeartsError.wrongPhase
  else if ¬ state.players.all (fun p => p.isReady) then
    Except.error HeartsError.playersNotReady
  else
    let passedCards := state.players.map passedCardsOf
    let updatedPlayers := mapWithIdx (fun index player =>
      let newHand := player.hand.filter (fun c =>
        decide (¬ player.selectedCards.contains c.id))
      let senderIndex := getSender state.passDirection index
      let receivedCards := (passedCards.get? senderIndex).getD []
      { player with
        hand := sortHand (newHand ++ receivedCards),
        selectedCards := [],
        isReady := false }) 0 state.players
    Except.ok { state with players := updatedPlayers, phase := GamePhase.playing }

/-- `playCard`: turn/legality-checked play of one card into the current
trick. -/
def playCard (state : GameState) (playerId cardId : String) :
    Except HeartsError GameState :=
  if state.phase ≠ GamePhase.playing then Except.error HeartsError.wrongPhase
  else
    match state.players.get? state.currentPlayerIndex with
    | none => Except.error HeartsError.playerNotFound
    | some currentPlayer =>
      if currentPlayer.id ≠ playerId then Except.error HeartsError.notYourTurn
      else
        match currentPlayer.hand.find? (fun c => decide (c.id = cardId)) with
        | none => Except.error HeartsError.cardNotInHand
        | some card =>
          if ¬ isValidPlay state playerId card then Except.error HeartsError.illegalPlay
          else
            let updatedPlayers := state.players.set state.currentPlayerIndex
              { currentPlayer with
                hand := currentPlayer.hand.filter (fun c => decide (c.id ≠ cardId)) }
            let currentTrick : Trick :=
              { state.currentTrick with
                cards := state.currentTrick.cards ++ [{ playerId := playerId, card := card }],
                leadingSuit :=
                  match state.currentTrick.leadingSuit with
                  | some ls => some ls
                  | none => some card.suit }
            let heartsBroken := state.heartsBroken || trickContainsHearts currentTrick
            let nextPlayerIndex := (state.currentPlayerIndex + 1) % 4
            Except.ok { state with
              players := updatedPlayers,
              currentTrick := currentTrick,
              currentPlayerIndex := nextPlayerIndex,
              heartsBroken := heartsBroken }

/-- An empty trick value (used when resetting `currentTrick`). -/
def emptyTrick : Trick :=
  { cards := [], leadingSuit := none, winnerId := none }

/-- `completeTrick`: resolve the winner of a 4-card trick, credit the trick,
and either continue the hand or (after the 13th trick) apply scores. -/
def completeTrick (state : GameState) : Except HeartsError GameState :=
  if state.currentTrick.cards.length ≠ 4 then Except.error HeartsError.trickNotComplete
  else
    match determineTrickWinner state.currentTrick with
    | none => Except.error HeartsError.noTrickWinner
    | some winnerId =>
      let completedTrick : Trick := { state.currentTrick with winnerId := some winnerId }
      let updatedPlayers := state.players.map (fun player =>
        if player.id = winnerId then
          { player with
            tricksTaken := player.tricksTaken ++ [completedTrick.cards.map (fun c => c.card)] }
        else player)
      let winnerIndex := updatedPlayers.findIdx (fun p => decide (p.id = winnerId))
      let completedTricks := state.completedTricks ++ [completedTrick]
      if completedTricks.length = 13 then
        Except.ok (applyScores { state with
          players := updatedPlayers,
          completedTricks := completedTricks })
      else
        Except.ok { state with
          players := updatedPlayers,
          currentPlayerIndex := winnerIndex,
          currentTrick := emptyTrick,
          completedTricks := completedTricks,
          firstTrick := false }

/-- `startNewHand`: advance `handNumber`, recompute the pass direction, and
reset all hand-scoped fields (scores persist).  The fresh shuffled deck is an
argument, as in `createGame`. -/
def startNewHand (state : GameState) (shuffledDeck : List HeartsCard) :
    Except HeartsError GameState :=
  if state.phase ≠ GamePhase.handComplete then Except.error HeartsError.wrongPhase
  else
    let handNumber := state.handNumber + 1
    let passDirection := getPassDirection handNumber
    let players := state.players.map (fun player =>
      { player with
        hand := [],
        tricksTaken := [],
        handScore := 0,
        selectedCards := [],
        isReady := false })
    Except.ok { state with
      phase := GamePhase.dealing,
      players := players,
      currentPlayerIndex := 0,
      currentTrick := emptyTrick,
      completedTricks := [],
      passDirection := passDirection,
      heartsBroken := false,
      firstTrick := true,
      handNumber := handNumber,
      deck := shuffledDeck }

/-- The point value as a function of the (rank, suit) pair only. -/
def pointValuePair (rs : Rank × Suit) : Nat :=
  if rs.2 = Suit.hearts then 1
  else if rs.2 = Suit.spades ∧ rs.1 = Rank.queen then 13
  else 0

/-- Convenience card builders for concrete witness states. -/
def mkCard (id : String) (rank : Rank) (suit : Suit) : HeartsCard :=
  { id := id, rank := rank, suit := suit, isFaceUp := true }

/-- All thirteen Hearts cards (for moon-shooting witnesses). -/
def allHeartsCards : List HeartsCard :=
  [mkCard "2h" Rank.two Suit.hearts, mkCard "3h" Rank.three Suit.hearts,
   mkCard "4h" Rank.four Suit.hearts, mkCard "5h" Rank.five Suit.hearts,
   mkCard "6h" Rank.six Suit.hearts, mkCard "7h" Rank.seven Suit.hearts,
   mkCard "8h" Rank.eight Suit.hearts, mkCard "9h" Rank.nine Suit.hearts,
   mkCard "10h" Rank.ten Suit.hearts, mkCard "jh" Rank.jack Suit.hearts,
   mkCard "qh" Rank.queen Suit.hearts, mkCard "kh" Rank.king Suit.hearts,
   mkCard "ah" Rank.ace Suit.hearts]

/-- A player holding every point card of the hand in their tricks. -/
def moonPlayer : Player :=
  { id := "p0", name := "A", hand := [],
    tricksTaken := [allHeartsCards ++ [mkCard "qs" Rank.queen Suit.spades]],
    score := 0, handScore := 0, selectedCards := [], isReady := false }

/-- A player who took no points. -/
def quietPlayer : Player :=
  { id := "p1", name := "B", hand := [],
    tricksTaken := [[mkCard "2c" Rank.two Suit.clubs]],
    score := 0, handScore := 0, selectedCards := [], isReady := false }

/-- A four-player roster where player `p0` sits at 98 points and has taken
the given tricks this hand. -/
def rosterAt98 (tricks : List (List HeartsCard)) : List Player :=
  [{ id := "p0", name := "A", hand := [], tricksTaken := tricks,
     score := 98, handScore := 0, selectedCards := [], isReady := false },
   { id := "p1", name := "B", hand := [], tricksTaken := [],
     score := 10, handScore := 0, selectedCards := [], isReady := false },
   { id := "p2", name := "C", hand := [], tricksTaken := [],
     score := 20, handScore := 0, selectedCards := [], isReady := false },
   { id := "p3", name := "D", hand := [], tricksTaken := [],
     score := 30, handScore := 0, selectedCards := [], isReady := false }]

/-- A `HandComplete`-bound state over the given roster. -/
def stateOver (players : List Player) : GameState :=
  { phase := GamePhase.playing,
    players := players,
    currentPlayerIndex := 0,
    currentTrick := { cards := [], leadingSuit := none, winnerId := none },
    completedTricks := [],
    passDirection := PassDirection.none,
    heartsBroken := true,
    firstTrick := false,
    handNumber := 0,
    deck := [] }

/-- A minimal one-player state for the unknown-player witness. -/
def loneState : GameState :=
  { phase := GamePhase.playing,
    players := [{ id := "p0", name := "A", hand := [mkCard "2c" Rank.two Suit.clubs],
                  tricksTaken := [], score := 0, handScore := 0,
                  selectedCards := [], isReady := false }],
    currentPlayerIndex := 0,
    currentTrick := { cards := [], leadingSuit := none, winnerId := none },
    completedTricks := [],
    passDirection := PassDirection.none,
    heartsBroken := false,
    firstTrick := true,
    handNumber := 0,
    deck := [] }

/-- The first-trick leader of the concrete C2 witness state, holding
`{2♣, 5♣, 2♥}`. -/
def firstTrickLeader : Player :=
  { id := "p0", name := "A",
    hand := [mkCard "2c" Rank.two Suit.clubs, mkCard "5c" Rank.five Suit.clubs,
             mkCard "2h" Rank.two Suit.hearts],
    tricksTaken := [], score := 0, handScore := 0, selectedCards := [], isReady := false }

/-- A Playing-phase state at the very start of a hand's first trick. -/
def firstTrickState : GameState :=
  { phase := GamePhase.playing,
    players := [firstTrickLeader,
      { id := "p1", name := "B", hand := [mkCard "ad" Rank.ace Suit.diamonds],
        tricksTaken := [], score := 0, handScore := 0, selectedCards := [], isReady := false },
      { id := "p2", name := "C", hand := [mkCard "kd" Rank.king Suit.diamonds],
        tricksTaken := [], score := 0, handScore := 0, selectedCards := [], isReady := false },
      { id := "p3", name := "D", hand := [mkCard "qd" Rank.queen Suit.diamonds],
        tricksTaken := [], score := 0, handScore := 0, selectedCards := [], isReady := false }],
    currentPlayerIndex := 0,
    currentTrick := { cards := [], leadingSuit := none, winnerId := none },
    completedTricks := [],
    passDirection := PassDirection.none,
    heartsBroken := false,
    firstTrick := true,
    handNumber := 0,
    deck := [] }

/-- Four players with empty hands, twelve completed tricks, and a full
current trick won by `p2` (10♣ on a Clubs lead): the state just before the
hand's 13th trick is resolved. -/
def thirteenthTrickState : GameState :=
  { phase := GamePhase.playing,
    players :=
      [{ id := "p0", name := "A", hand := [], tricksTaken := [], score := 0,
         handScore := 0, selectedCards := [], isReady := false },
       { id := "p1", name := "B", hand := [], tricksTaken := [], score := 0,
         handScore := 0, selectedCards := [], isReady := false },
       { id := "p2", name := "C", hand := [], tricksTaken := [], score := 0,
         handScore := 0, selectedCards := [], isReady := false },
       { id := "p3", name := "D", hand := [], tricksTaken := [], score := 0,
         handScore := 0, selectedCards := [], isReady := false }],
    currentPlayerIndex := 0,
    currentTrick :=
      { cards := [{ playerId := "p0", card := mkCard "2c" Rank.two Suit.clubs },
                  { playerId := "p1", card := mkCard "5c" Rank.five Suit.clubs },
                  { playerId := "p2", card := mkCard "10c" Rank.ten Suit.clubs },
                  { playerId := "p3", card := mkCard "ad" Rank.ace Suit.diamonds }],
        leadingSuit := some Suit.clubs, winnerId := none },
    completedTricks := List.replicate 12 emptyTrick,
    passDirection := PassDirection.none,
    heartsBroken := false,
    firstTrick := false,
    handNumber := 0,
    deck := [] }

/-- Like `thirteenthTrickState` but with no completed tricks yet: resolving
this trick must reset the table for the next one. -/
def earlyTrickState : GameState :=
  { thirteenthTrickState with completedTricks := [] }

/-! ## In-hand transitions -/

/-- One successful in-hand transition: a `playCard` or a `completeTrick`. -/
inductive Step : GameState → GameState → Prop where
  | play (s s' : GameState) (playerId cardId : String) :
      playCard s playerId cardId = Except.ok s' → Step s s'
  | complete (s s' : GameState) :
      completeTrick s = Except.ok s' → Step s s'

/-- A Playing-phase state where `p0` must break suit and holds only the Two
of Hearts (a legal discard on a Clubs lead). -/
def heartsPlayState : GameState :=
  { phase := GamePhase.playing,
    players :=
      [{ id := "p0", name := "A", hand := [mkCard "2h" Rank.two Suit.hearts],
         tricksTaken := [], score := 0, handScore := 0, selectedCards := [], isReady := false },
       { id := "p1", name := "B", hand := [mkCard "kd" Rank.king Suit.diamonds],
         tricksTaken := [], score := 0, handScore := 0, selectedCards := [], isReady := false },
       { id := "p2", name := "C", hand := [mkCard "qd" Rank.queen Suit.diamonds],
         tricksTaken := [], score := 0, handScore := 0, selectedCards := [], isReady := false },
       { id := "p3", name := "D", hand := [],
         tricksTaken := [], score := 0, handScore := 0, selectedCards := [], isReady := false }],
    currentPlayerIndex := 0,
    currentTrick :=
      { cards := [{ playerId := "p3", card := mkCard "2c" Rank.two Suit.clubs }],
        leadingSuit := some Suit.clubs, winnerId := none },
    completedTricks := [],
    passDirection := PassDirection.none,
    heartsBroken := false,
    firstTrick := false,
    handNumber := 0,
    deck := [] }

/-- A finished-hand state from which a fresh hand may start. -/
def handDoneState : GameState :=
  { stateOver (rosterAt98 []) with phase := GamePhase.handComplete, heartsBroken := true }

/-- The post-pass value of one player: selected cards filtered out, the
sender's passed cards added, the hand re-sorted, selection state reset. -/
def passPlayer (p sender : Player) : Player :=
  { p with
    hand := sortHand
      ((p.hand.filter (fun c => decide (¬ p.selectedCards.contains c.id)))
        ++ passedCardsOf sender),
    selectedCards := [],
    isReady := false }

/-- Concrete ready-to-pass players for the C5 witness. -/
def passP0 : Player :=
  { id := "p0", name := "A",
    hand := [mkCard "c1" Rank.two Suit.clubs, mkCard "c2" Rank.three Suit.clubs,
             mkCard "c3" Rank.four Suit.clubs, mkCard "c4" Rank.five Suit.clubs],
    tricksTaken := [], score := 0, handScore := 0,
    selectedCards := ["c1", "c2", "c3"], isReady := true }

def passP1 : Player :=
  { id := "p1", name := "B",
    hand := [mkCard "d1" Rank.two Suit.diamonds, mkCard "d2" Rank.three Suit.diamonds,
             mkCard "d3" Rank.four Suit.diamonds, mkCard "d4" Rank.five Suit.diamonds],
    tricksTaken := [], score := 0, handScore := 0,
    selectedCards := ["d1", "d2", "d3"], isReady := true }

def passP2 : Player :=
  { id := "p2", name := "C",
    hand := [mkCard "s1" Rank.two Suit.spades, mkCard "s2" Rank.three Suit.spades,
             mkCard "s3" Rank.four Suit.spades, mkCard "s4" Rank.five Suit.spades],
    tricksTaken := [], score := 0, handScore := 0,
    selectedCards := ["s1", "s2", "s3"], isReady := true }

def passP3 : Player :=
  { id := "p3", name := "D",
    hand := [mkCard "h1" Rank.two Suit.hearts, mkCard "h2" Rank.three Suit.hearts,
             mkCard "h3" Rank.four Suit.hearts, mkCard "h4" Rank.five Suit.hearts],
    tricksTaken := [], score := 0, handScore := 0,
    selectedCards := ["h1", "h2", "h3"], isReady := true }

/-- A Passing-phase, all-ready, Left-direction state. -/
def passingState : GameState :=
  { phase := GamePhase.passing,
    players := [passP0, passP1, passP2, passP3],
    currentPlayerIndex := 0,
    currentTrick := { cards := [], leadingSuit := none, winnerId := none },
    completedTricks := [],
    passDirection := PassDirection.left,
    heartsBroken := false,
    firstTrick := true,
    handNumber := 0,
    deck := [] }

/-! ## Card conservation -/

/-- The card values played into a trick. -/
def trickCards (t : Trick) : List HeartsCard :=
  t.cards.map (fun c => c.card)

/-- Every card a hand-in-progress accounts for: the four hands, the current
trick and the completed tricks. -/
def cardsInPlay (s : GameState) : List HeartsCard :=
  (s.players.map (fun p => p.hand)).flatten ++ trickCards s.currentTrick
    ++ (s.completedTricks.map trickCards).flatten

/-- Card conservation: 52 cards in play and no card id appears twice. -/
def conserved (s : GameState) : Prop :=
  ((s.players.map (fun p => p.hand.length)).sum + s.currentTrick.cards.length
      + (s.completedTricks.map (fun t => t.cards.length)).sum = 52) ∧
  ((cardsInPlay s).map (fun c => c.id)).Nodup

/-- One full 13-card suit with distinct ids prefixed by `tag`. -/
def suitRun (tag : String) (su : Suit) : List HeartsCard :=
  [mkCard (tag ++ "2") Rank.two su, mkCard (tag ++ "3") Rank.three su,
   mkCard (tag ++ "4") Rank.four su, mkCard (tag ++ "5") Rank.five su,
   mkCard (tag ++ "6") Rank.six su, mkCard (tag ++ "7") Rank.seven su,
   mkCard (tag ++ "8") Rank.eight su, mkCard (tag ++ "9") Rank.nine su,
   mkCard (tag ++ "10") Rank.ten su, mkCard (tag ++ "J") Rank.jack su,
   mkCard (tag ++ "Q") Rank.queen su, mkCard (tag ++ "K") Rank.king su,
   mkCard (tag ++ "A") Rank.ace su]

/-- A fully dealt Playing-phase start-of-hand state: each player holds one
entire suit, so all 52 distinct cards are in the four hands. -/
def fullHandsState : GameState :=
  { phase := GamePhase.playing,
    players :=
      [{ id := "p0", name := "A", hand := suitRun "c" Suit.clubs, tricksTaken := [],
         score := 0, handScore := 0, selectedCards := [], isReady := false },
       { id := "p1", name := "B", hand := suitRun "d" Suit.diamonds, tricksTaken := [],
         score := 0, handScore := 0, selectedCards := [], isReady := false },
       { id := "p2", name := "C", hand := suitRun "s" Suit.spades, tricksTaken := [],
         score := 0, handScore := 0, selectedCards := [], isReady := false },
       { id := "p3", name := "D", hand := suitRun "h" Suit.hearts, tricksTaken := [],
         score := 0, handScore := 0, selectedCards := [], isReady := false }],
    currentPlayerIndex := 0,
    currentTrick := { cards := [], leadingSuit := none, winnerId := none },
    completedTricks := [],
    passDirection := PassDirection.none,
    heartsBroken := false,
    firstTrick := true,
    handNumber := 0,
    deck := [] }

/-! ## Scoring lemmas -/

lemma foldl_add_points (trick : List HeartsCard) (t : Nat) :
    trick.foldl (fun acc c => acc + getPointValue c) t = t + (trick.map getPointValue).sum := by
  induction trick generalizing t with
  | nil => simp
  | cons c cs ih => simp [ih, Nat.add_assoc]

lemma calculateHandScore_eq_sum (tricksTaken : List (List HeartsCard)) :
    calculateHandScore tricksTaken
      = (tricksTaken.map (fun trick => (trick.map getPointValue).sum)).sum := by
  unfold calculateHandScore
  suffices h : ∀ acc : Nat,
      tricksTaken.foldl (fun total trick =>
        trick.foldl (fun t card => t + getPointValue card) total) acc
        = acc + (tricksTaken.map (fun trick => (trick.map getPointValue).sum)).sum by
    simpa using h 0
  induction tricksTaken with
  | nil => simp
  | cons tr trs ih =>
      intro acc
      simp only [List.foldl_cons]
      rw [foldl_add_points, ih]
      simp [Nat.add_assoc]

lemma calculateHandScore_flatten (tricksTaken : List (List HeartsCard)) :
    calculateHandScore tricksTaken = (tricksTaken.flatten.map getPointValue).sum := by
  rw [calculateHandScore_eq_sum]
  induction tricksTaken with
  | nil => simp
  | cons tr trs ih => simp [ih]

lemma getPointValue_eq_pair (c : HeartsCard) :
    getPointValue c = pointValuePair (c.rank, c.suit) := rfl

lemma total_pointValuePair : (∑ x : Rank × Suit, pointValuePair x) = 26 := by decide

lemma sum_points_le_26 (l : List HeartsCard)
    (h : (l.map (fun c => (c.rank, c.suit))).Nodup) :
    (l.map getPointValue).sum ≤ 26 := by
  have h1 : l.map getPointValue = (l.map (fun c => (c.rank, c.suit))).map pointValuePair := by
    rw [List.map_map]; rfl
  rw [h1]
  calc ((l.map (fun c => (c.rank, c.suit))).map pointValuePair).sum
      = ∑ x ∈ (l.map (fun c => (c.rank, c.suit))).toFinset, pointValuePair x :=
        (List.sum_toFinset _ h).symm
    _ ≤ ∑ x : Rank × Suit, pointValuePair x :=
        Finset.sum_le_sum_of_subset (Finset.subset_univ _)
    _ = 26 := total_pointValuePair

/-- C7: `getPointValue` gives 1 to every Hearts card, 13 to the Queen of
Spades, 0 to every other card; `calculateHandScore` sums the point values of
every card of every trick taken and is at most 26 whenever the cards' (rank,
suit) values are pairwise distinct; `checkShootMoon` returns the single
player whose hand score is exactly 26 and `none` when no player has score
26. -/
theorem scoring_engine_spec :
    (∀ c : HeartsCard, c.suit = Suit.hearts → getPointValue c = 1) ∧
    (∀ c : HeartsCard, c.suit = Suit.spades → c.rank = Rank.queen → getPointValue c = 13) ∧
    (∀ c : HeartsCard, c.suit ≠ Suit.hearts → ¬ (c.suit = Suit.spades ∧ c.rank = Rank.queen) →
      getPointValue c = 0) ∧
    (∀ tricksTaken : List (List HeartsCard),
      calculateHandScore tricksTaken = (tricksTaken.flatten.map getPointValue).sum) ∧
    (∀ tricksTaken : List (List HeartsCard),
      (tricksTaken.flatten.map (fun c => (c.rank, c.suit))).Nodup →
      calculateHandScore tricksTaken ≤ 26) ∧
    (∀ players : List Player,
      (∀ p ∈ players, calculateHandScore p.tricksTaken ≠ 26) →
      checkShootMoon players = none) ∧
    (∀ (players : List Player) (p : Player), p ∈ players →
      calculateHandScore p.tricksTaken = 26 →
      (∀ q ∈ players, calculateHandScore q.tricksTaken = 26 → q.id = p.id) →
      checkShootMoon players = some p.id) := by
  refine ⟨?_, ?_, ?_, ?_, ?_, ?_, ?_⟩
  · intro c h; simp [getPointValue, h]
  · intro c hs hr; simp [getPointValue, hs, hr]
  · intro c hs hq; simp [getPointValue, hs, hq]
  · exact calculateHandScore_flatten
  · intro tricksTaken h
    rw [calculateHandScore_flatten]
    exact sum_points_le_26 _ h
  · intro players h
    unfold checkShootMoon
    rw [List.find?_eq_none.mpr]
    · rfl
    · intro p hp
      simpa using h p hp
  · intro players p hmem h26 huniq
    have hsome : (players.find? (fun q =>
        decide (calculateHandScore q.tricksTaken = 26))).isSome :=
      List.find?_isSome.mpr ⟨p, hmem, by simpa using h26⟩
    cases hfind : players.find? (fun q => decide (calculateHandScore q.tricksTaken = 26)) with
    | none => rw [hfind] at hsome; simp at hsome
    | some q =>
      have hqmem : q ∈ players := List.mem_of_find?_eq_some hfind
      have hq26 : calculateHandScore q.tricksTaken = 26 := by
        simpa using List.find?_some hfind
      have hid : q.id = p.id := huniq q hqmem hq26
      unfold checkShootMoon
      rw [hfind]
      simp [hid]

/-- Witness for C7 at concrete inputs. -/
theorem scoring_engine_spec_witness :
    getPointValue (mkCard "5h" Rank.five Suit.hearts) = 1 ∧
    getPointValue (mkCard "qs" Rank.queen Suit.spades) = 13 ∧
    getPointValue (mkCard "2c" Rank.two Suit.clubs) = 0 ∧
    calculateHandScore moonPlayer.tricksTaken
      = (moonPlayer.tricksTaken.flatten.map getPointValue).sum ∧
    calculateHandScore moonPlayer.tricksTaken ≤ 26 ∧
    checkShootMoon [quietPlayer] = none ∧
    checkShootMoon [moonPlayer, quietPlayer] = some "p0" := by
  obtain ⟨h1, h2, h3, h4, h5, h6, h7⟩ := scoring_engine_spec
  refine ⟨h1 _ rfl, h2 _ rfl rfl, h3 _ (by decide) (by decide), h4 _, h5 _ (by decide),
    h6 [quietPlayer] (by decide), ?_⟩
  have := h7 [moonPlayer, quietPlayer] moonPlayer (by simp) (by decide) (by decide)
  simpa using this

/-- C6: `applyScores` recomputes each player's hand score from their tricks;
with a moon shooter, the shooter's cumulative score is unchanged (hand score
recorded as 0) and every other player gains 26; otherwise every player gains
their own hand score; the phase becomes `GameOver` exactly when some player's
updated score reaches 100, and `HandComplete` otherwise. -/
theorem applyScores_spec (s : GameState) :
    (∀ m, checkShootMoon (s.players.map (fun p =>
        { p with handScore := calculateHandScore p.tricksTaken })) = some m →
      (applyScores s).players = s.players.map (fun p =>
        if p.id = m then { p with handScore := 0 }
        else { p with score := p.score + 26, handScore := 26 })) ∧
    (checkShootMoon (s.players.map (fun p =>
        { p with handScore := calculateHandScore p.tricksTaken })) = none →
      (applyScores s).players = s.players.map (fun p =>
        { p with score := p.score + calculateHandScore p.tricksTaken,
                 handScore := calculateHandScore p.tricksTaken })) ∧
    ((∃ p ∈ (applyScores s).players, 100 ≤ p.score) →
      (applyScores s).phase = GamePhase.gameOver) ∧
    ((∀ p ∈ (applyScores s).players, p.score < 100) →
      (applyScores s).phase = GamePhase.handComplete) := by
  refine ⟨?_, ?_, ?_, ?_⟩
  · intro m hm
    simp only [applyScores, hm, List.map_map]
    apply List.map_congr_left
    intro p _
    by_cases hp : p.id = m <;> simp [hp]
  · intro hm
    simp only [applyScores, hm, List.map_map]
    apply List.map_congr_left
    intro p _
    simp
  · intro h
    have hany : (applyScores s).players.any (fun p => decide (100 ≤ p.score)) = true := by
      rw [List.any_eq_true]
      obtain ⟨p, hp, hs⟩ := h
      exact ⟨p, hp, by simpa using hs⟩
    simp only [applyScores] at hany ⊢
    rw [hany]
    simp
  · intro h
    have hany : (applyScores s).players.any (fun p => decide (100 ≤ p.score)) = false := by
      rw [List.any_eq_false]
      intro p hp
      simp only [decide_eq_true_eq]
      exact Nat.not_le.mpr (h p hp)
    simp only [applyScores] at hany ⊢
    rw [hany]
    simp

/-- Witness for C6: a player at 98 gaining 2 points ends the game at 100;
gaining only 1 point leaves the game open at 99. -/
theorem applyScores_spec_witness :
    (applyScores (stateOver (rosterAt98
      [[mkCard "2h" Rank.two Suit.hearts, mkCard "3h" Rank.three Suit.hearts]]))).phase
        = GamePhase.gameOver ∧
    (applyScores (stateOver (rosterAt98
      [[mkCard "2h" Rank.two Suit.hearts]]))).phase = GamePhase.handComplete := by
  constructor
  · exact (applyScores_spec (stateOver (rosterAt98
      [[mkCard "2h" Rank.two Suit.hearts, mkCard "3h" Rank.three Suit.hearts]]))).2.2.1
      ⟨{ id := "p0", name := "A",
         tricksTaken := [[mkCard "2h" Rank.two Suit.hearts, mkCard "3h" Rank.three Suit.hearts]],
         hand := [], score := 100, handScore := 2, selectedCards := [], isReady := false },
       by decide, by decide⟩
  · exact (applyScores_spec (stateOver (rosterAt98
      [[mkCard "2h" Rank.two Suit.hearts]]))).2.2.2 (by decide)

/-- C3: evaluation of `determineTrickWinner` at the spec's own example trick
(Clubs led; Clubs 2, 5, 10 and a Diamond Ace) in two storage orders.  With
the Diamond Ace stored first, the scan is seeded with it and no Club can
beat rank 14, so the Ace's holder `p3` wins even though the Ace does not
match the leading suit; in play order the 10 of Clubs' holder `p2` wins.
The function is therefore not invariant under reordering of `trick.cards`. -/
theorem determineTrickWinner_at_failing_input :
    determineTrickWinner
      { cards := [{ playerId := "p3", card := mkCard "ad" Rank.ace Suit.diamonds },
                  { playerId := "p0", card := mkCard "2c" Rank.two Suit.clubs },
                  { playerId := "p1", card := mkCard "5c" Rank.five Suit.clubs },
                  { playerId := "p2", card := mkCard "10c" Rank.ten Suit.clubs }],
        leadingSuit := some Suit.clubs, winnerId := none } = some "p3" ∧
    determineTrickWinner
      { cards := [{ playerId := "p0", card := mkCard "2c" Rank.two Suit.clubs },
                  { playerId := "p1", card := mkCard "5c" Rank.five Suit.clubs },
                  { playerId := "p2", card := mkCard "10c" Rank.ten Suit.clubs },
                  { playerId := "p3", card := mkCard "ad" Rank.ace Suit.diamonds }],
        leadingSuit := some Suit.clubs, winnerId := none } = some "p2" := by
  constructor <;> rfl

/-- C10: `createGame` succeeds on any list of exactly 4 names — duplicates
included, since name distinctness is never checked — and derives the four
distinct player ids `player-0` … `player-3` from list position. -/
theorem createGame_spec (playerNames : List String) (shuffledDeck : List HeartsCard)
    (h : playerNames.length = 4) :
    ∃ st, createGame playerNames shuffledDeck = Except.ok st ∧
      st.players.map (fun p => p.id) = ["player-0", "player-1", "player-2", "player-3"] ∧
      (st.players.map (fun p => p.id)).Nodup ∧
      st.players.map (fun p => p.name) = playerNames ∧
      st.phase = GamePhase.dealing := by
  obtain ⟨a, b, c, d, rfl⟩ : ∃ a b c d, playerNames = [a, b, c, d] := by
    match playerNames, h with
    | [a, b, c, d], _ => exact ⟨a, b, c, d, rfl⟩
  refine ⟨_, rfl, rfl, ?_, rfl, rfl⟩
  show (["player-0", "player-1", "player-2", "player-3"] : List String).Nodup
  decide

/-- Witness for C10: four identical names are accepted and still get the four
distinct positional ids. -/
theorem createGame_spec_witness :
    (createGame ["Alice", "Alice", "Alice", "Alice"] []).map
        (fun st => st.players.map (fun p => p.id))
      = Except.ok ["player-0", "player-1", "player-2", "player-3"] := by
  obtain ⟨st, hok, hids, _, _, _⟩ :=
    createGame_spec ["Alice", "Alice", "Alice", "Alice"] [] (by decide)
  rw [hok]
  simp [Except.map, hids]

/-- C9: `getValidPlays` on a player id that matches no player returns the
empty list instead of failing, and `isValidPlay` is accordingly false for
every card of such a player id. -/
theorem getValidPlays_unknown_player (s : GameState) (playerId : String)
    (h : ∀ p ∈ s.players, p.id ≠ playerId) :
    getValidPlays s playerId = [] ∧
    ∀ card : HeartsCard, isValidPlay s playerId card = false := by
  have hf : s.players.find? (fun p => decide (p.id = playerId)) = none :=
    List.find?_eq_none.mpr (fun p hp => by simpa using h p hp)
  have h1 : getValidPlays s playerId = [] := by
    unfold getValidPlays
    rw [hf]
  refine ⟨h1, ?_⟩
  intro card
  unfold isValidPlay
  rw [h1]
  rfl

/-- Witness for C9 at a concrete state and unknown id. -/
theorem getValidPlays_unknown_player_witness :
    getValidPlays loneState "ghost" = [] ∧
    isValidPlay loneState "ghost" (mkCard "2c" Rank.two Suit.clubs) = false := by
  obtain ⟨h1, h2⟩ := getValidPlays_unknown_player loneState "ghost" (by decide)
  exact ⟨h1, h2 _⟩

/-- C2: `getValidPlays` computes the legal candidate set in priority order:
on the hand's first trick, a leader holding the Two of Clubs gets exactly
that singleton; a later leader may not lead Hearts unless hearts are broken
or the hand is all Hearts; a follower must follow the leading suit when
possible, may otherwise play anything, except that on the first trick Hearts
and the Queen of Spades are excluded exactly when an alternative exists. -/
theorem getValidPlays_spec (s : GameState) (playerId : String) (player : Player)
    (hphase : s.phase = GamePhase.playing)
    (hcur : s.players.get? s.currentPlayerIndex = some player)
    (hfind : s.players.find? (fun p => decide (p.id = playerId)) = some player) :
    (s.currentTrick.cards = [] → s.firstTrick = true →
      ∀ c, player.hand.find? (fun c => decide (c.rank = Rank.two ∧ c.suit = Suit.clubs))
          = some c →
        getValidPlays s playerId = [c] ∧ c.rank = Rank.two ∧ c.suit = Suit.clubs ∧
          c ∈ player.hand) ∧
    (s.currentTrick.cards = [] → s.firstTrick = false →
      ((s.heartsBroken = false → (∃ c ∈ player.hand, c.suit ≠ Suit.hearts) →
        getValidPlays s playerId
          = player.hand.filter (fun c => decide (c.suit ≠ Suit.hearts))) ∧
       ((s.heartsBroken = true ∨ ∀ c ∈ player.hand, c.suit = Suit.hearts) →
        getValidPlays s playerId = player.hand))) ∧
    (∀ ls, s.currentTrick.cards ≠ [] → s.currentTrick.leadingSuit = some ls →
      (((∃ c ∈ player.hand, c.suit = ls) →
        getValidPlays s playerId = player.hand.filter (fun c => decide (c.suit = ls))) ∧
       ((∀ c ∈ player.hand, c.suit ≠ ls) → s.firstTrick = true →
        (((∃ c ∈ player.hand,
            ¬ (c.suit = Suit.hearts ∨ (c.suit = Suit.spades ∧ c.rank = Rank.queen))) →
          getValidPlays s playerId = player.hand.filter (fun c =>
            decide (¬ (c.suit = Suit.hearts ∨ (c.suit = Suit.spades ∧ c.rank = Rank.queen))))) ∧
         ((∀ c ∈ player.hand,
            c.suit = Suit.hearts ∨ (c.suit = Suit.spades ∧ c.rank = Rank.queen)) →
          getValidPlays s playerId = player.hand))) ∧
       ((∀ c ∈ player.hand, c.suit ≠ ls) → s.firstTrick = false →
        getValidPlays s playerId = player.hand))) := by
  refine ⟨?_, ?_, ?_⟩
  · intro hlead hft c hfc
    have hc2 : c.rank = Rank.two ∧ c.suit = Suit.clubs := by
      simpa using List.find?_some hfc
    refine ⟨?_, hc2.1, hc2.2, List.mem_of_find?_eq_some hfc⟩
    unfold getValidPlays
    rw [hfind]
    dsimp only
    rw [hlead]
    rw [if_pos (by rfl), if_pos hft, hfc]
  · intro hlead hft
    constructor
    · intro hb ⟨c, hc, hcs⟩
      have hcl : canLeadHearts s player.hand = false := by
        unfold canLeadHearts
        rw [hb]
        simp only [Bool.false_eq_true, if_false]
        rw [List.all_eq_false]
        exact ⟨c, hc, by simpa using hcs⟩
      have hmemf : c ∈ player.hand.filter (fun c => decide (c.suit ≠ Suit.hearts)) :=
        List.mem_filter.mpr ⟨hc, decide_eq_true hcs⟩
      unfold getValidPlays
      rw [hfind]
      dsimp only
      rw [hlead]
      rw [if_pos (by rfl), if_neg (by simp [hft]), if_pos (by simp [hcl]),
        if_pos (List.length_pos_of_mem hmemf)]
    · intro hcl'
      have hcl : canLeadHearts s player.hand = true := by
        unfold canLeadHearts
        rcases hcl' with hb | hall
        · rw [hb]
          rfl
        · split
          · rfl
          · rw [List.all_eq_true]
            intro c hc
            simpa using hall c hc
      unfold getValidPlays
      rw [hfind]
      dsimp only
      rw [hlead]
      rw [if_pos (by rfl), if_neg (by simp [hft]), if_neg (by simp [hcl])]
  · intro ls hne hls
    have hlen : ¬ s.currentTrick.cards.length = 0 := fun h => hne (List.length_eq_zero.mp h)
    refine ⟨?_, ?_, ?_⟩
    · intro ⟨c, hc, hcs⟩
      have hcf : canFollowSuit player.hand ls = true := by
        unfold canFollowSuit
        rw [List.any_eq_true]
        exact ⟨c, hc, decide_eq_true hcs⟩
      unfold getValidPlays
      rw [hfind]
      dsimp only
      rw [if_neg hlen, hls]
      dsimp only
      rw [if_pos hcf]
    · intro hnofollow hft
      have hcf : canFollowSuit player.hand ls = false := by
        unfold canFollowSuit
        rw [List.any_eq_false]
        intro c hc
        simpa using hnofollow c hc
      constructor
      · intro ⟨c, hc, hcsafe⟩
        have hmemf : c ∈ player.hand.filter (fun c =>
            decide (¬ (c.suit = Suit.hearts ∨ (c.suit = Suit.spades ∧ c.rank = Rank.queen)))) :=
          List.mem_filter.mpr ⟨hc, decide_eq_true hcsafe⟩
        unfold getValidPlays
        rw [hfind]
        dsimp only
        rw [if_neg hlen, hls]
        dsimp only
        rw [if_neg (by simp [hcf]), if_pos hft, if_pos (List.length_pos_of_mem hmemf)]
      · intro hallbad
        have hempty : player.hand.filter (fun c =>
            decide (¬ (c.suit = Suit.hearts ∨ (c.suit = Suit.spades ∧ c.rank = Rank.queen))))
              = [] := by
          rw [List.filter_eq_nil_iff]
          intro c hc
          simp only [decide_eq_true_eq, not_not]
          exact hallbad c hc
        have hfull : player.hand.filter (fun c =>
            decide (c.suit = Suit.hearts ∨ (c.suit = Suit.spades ∧ c.rank = Rank.queen)))
              = player.hand := by
          rw [List.filter_eq_self]
          intro c hc
          exact decide_eq_true (hallbad c hc)
        unfold getValidPlays
        rw [hfind]
        dsimp only
        rw [if_neg hlen, hls]
        dsimp only
        rw [if_neg (by simp [hcf]), if_pos hft, hempty, if_neg (by simp), hfull]
    · intro hnofollow hft
      have hcf : canFollowSuit player.hand ls = false := by
        unfold canFollowSuit
        rw [List.any_eq_false]
        intro c hc
        simpa using hnofollow c hc
      unfold getValidPlays
      rw [hfind]
      dsimp only
      rw [if_neg hlen, hls]
      dsimp only
      rw [if_neg (by simp [hcf]), if_neg (by simp [hft])]

/-- Witness for C2: leading the hand's first trick with `{2♣, 5♣, 2♥}` allows
exactly the Two of Clubs. -/
theorem getValidPlays_spec_witness :
    getValidPlays firstTrickState "p0" = [mkCard "2c" Rank.two Suit.clubs] := by
  have h := (getValidPlays_spec firstTrickState "p0" firstTrickLeader rfl rfl rfl).1
    rfl rfl (mkCard "2c" Rank.two Suit.clubs) rfl
  exact h.1

/-! ## completeTrick -/

lemma getElem?_findIdx_pred {α : Type} {l : List α} {pred : α → Bool} {q : α}
    (h : l[l.findIdx pred]? = some q) : pred q = true := by
  induction l with
  | nil => simp at h
  | cons a t ih =>
    rw [List.findIdx_cons] at h
    cases hpa : pred a with
    | true =>
      rw [hpa] at h
      simp at h
      rw [← h]
      exact hpa
    | false =>
      rw [hpa] at h
      simp at h
      exact ih h

lemma getElem?_findIdx_exists {α : Type} (l : List α) (pred : α → Bool)
    (h : ∃ x ∈ l, pred x) : ∃ q, l[l.findIdx pred]? = some q ∧ pred q = true := by
  induction l with
  | nil => simp at h
  | cons a t ih =>
    rw [List.findIdx_cons]
    cases hpa : pred a with
    | true => exact ⟨a, by simp, hpa⟩
    | false =>
      obtain ⟨x, hx, hpx⟩ := h
      have hx' : x ∈ t := by
        rcases List.mem_cons.mp hx with hxa | hxt
        · rw [hxa] at hpx
          rw [hpx] at hpa
          cases hpa
        · exact hxt
      obtain ⟨q, hq, hpq⟩ := ih ⟨x, hx', hpx⟩
      exact ⟨q, by simp [hq], hpq⟩

/-- C4 counterexample: on the hand's 13th trick (current trick full, 12
tricks already completed, winner `p2` seated at index 2), `completeTrick`
neither resets `currentTrick` (it still holds 4 cards) nor moves
`currentPlayerIndex` to the winner (it stays 0), contradicting the claim
that it always does both. -/
theorem completeTrick_claim_counterexample :
    determineTrickWinner thirteenthTrickState.currentTrick = some "p2" ∧
    (thirteenthTrickState.players.map (fun p => p.id)).get? 2 = some "p2" ∧
    (completeTrick thirteenthTrickState).map
      (fun st => (st.currentTrick.cards.length, st.currentPlayerIndex)) = Except.ok (4, 0) ∧
    (completeTrick thirteenthTrickState).map (fun st => st.phase)
      = Except.ok GamePhase.handComplete := by
  refine ⟨rfl, rfl, rfl, rfl⟩

/-- C4 (amended): with a full 4-card trick and a resolvable winner,
`completeTrick` credits the four cards to the winner's `tricksTaken` and
appends the finished trick to `completedTricks`.  When this was not the 13th
trick it also resets `currentTrick`, seats the winner as next leader, clears
`firstTrick` and stays in the same phase; when it was the 13th it hands the
credited state to `applyScores` unchanged otherwise (`currentTrick`,
`currentPlayerIndex` and `firstTrick` keep their old values).  A trick of any
other size fails with `TrickNotComplete`. -/
theorem completeTrick_spec (s : GameState) :
    (s.currentTrick.cards.length ≠ 4 →
      completeTrick s = Except.error HeartsError.trickNotComplete) ∧
    (∀ w, s.currentTrick.cards.length = 4 →
      determineTrickWinner s.currentTrick = some w →
      ∃ st, completeTrick s = Except.ok st ∧
        (s.completedTricks.length + 1 = 13 →
          st = applyScores { s with
            players := s.players.map (fun p =>
              if p.id = w then
                { p with tricksTaken :=
                    p.tricksTaken ++ [s.currentTrick.cards.map (fun c => c.card)] }
              else p),
            completedTricks :=
              s.completedTricks ++ [{ s.currentTrick with winnerId := some w }] } ∧
          (st.phase = GamePhase.handComplete ∨ st.phase = GamePhase.gameOver) ∧
          st.currentTrick = s.currentTrick ∧
          st.currentPlayerIndex = s.currentPlayerIndex ∧
          st.firstTrick = s.firstTrick) ∧
        (s.completedTricks.length + 1 ≠ 13 →
          st.players = s.players.map (fun p =>
            if p.id = w then
              { p with tricksTaken :=
                  p.tricksTaken ++ [s.currentTrick.cards.map (fun c => c.card)] }
            else p) ∧
          st.completedTricks
            = s.completedTricks ++ [{ s.currentTrick with winnerId := some w }] ∧
          st.currentTrick = emptyTrick ∧
          st.firstTrick = false ∧
          st.phase = s.phase ∧
          (∀ q, st.players[st.currentPlayerIndex]? = some q → q.id = w) ∧
          ((∃ p ∈ st.players, p.id = w) →
            ∃ q, st.players[st.currentPlayerIndex]? = some q ∧ q.id = w))) := by
  constructor
  · intro h
    unfold completeTrick
    rw [if_pos h]
  · intro w h4 hw
    unfold completeTrick
    rw [if_neg (fun hc => hc h4), hw]
    dsimp only
    have hlen : (s.completedTricks ++ [{ s.currentTrick with winnerId := some w }]).length
        = s.completedTricks.length + 1 := by simp
    by_cases h13 : s.completedTricks.length + 1 = 13
    · rw [if_pos (by rw [hlen]; exact h13)]
      refine ⟨_, rfl, ?_, fun hne => absurd h13 hne⟩
      intro _
      refine ⟨rfl, ?_, rfl, rfl, rfl⟩
      unfold applyScores
      dsimp only
      split
      · exact Or.inr rfl
      · exact Or.inl rfl
    · rw [if_neg (by rw [hlen]; exact h13)]
      refine ⟨_, rfl, fun hyes => absurd hyes h13, ?_⟩
      intro _
      refine ⟨rfl, rfl, rfl, rfl, rfl, ?_, ?_⟩
      · intro q hq
        have := getElem?_findIdx_pred hq
        simpa using this
      · intro ⟨p, hp, hpw⟩
        obtain ⟨q, hq, hpq⟩ := getElem?_findIdx_exists _
          (fun r => decide (r.id = w)) ⟨p, hp, decide_eq_true hpw⟩
        exact ⟨q, hq, by simpa using hpq⟩

/-- Witness for C4 (amended) on a concrete non-final trick: the trick is
credited, the table is reset, the winner `p2` leads next, and the phase
stays `Playing`. -/
theorem completeTrick_spec_witness :
    (completeTrick earlyTrickState).map
      (fun st => (st.currentTrick, st.firstTrick, st.phase))
      = Except.ok (emptyTrick, false, GamePhase.playing) ∧
    (completeTrick earlyTrickState).map
      (fun st => (st.players[st.currentPlayerIndex]?).map (fun q => q.id))
      = Except.ok (some "p2") := by
  obtain ⟨st, hok, _, hno⟩ := (completeTrick_spec earlyTrickState).2 "p2" rfl rfl
  obtain ⟨hpl, hct, hcur, hft, hph, hqall, hqex⟩ := hno (by decide)
  have hmem : ∃ p ∈ st.players, p.id = "p2" := by
    rw [hpl]
    decide
  obtain ⟨q, hq, hqid⟩ := hqex hmem
  constructor
  · rw [hok]
    simp only [Except.map, hcur, hft, hph]
    rfl
  · rw [hok]
    simp only [Except.map, hq]
    simp [hqid]

/-- Inversion of a successful `playCard`: the preconditions held and the
result is the explicit updated record. -/
lemma playCard_ok_inv {s : GameState} {playerId cardId : String} {s' : GameState}
    (h : playCard s playerId cardId = Except.ok s') :
    ∃ p c, s.phase = GamePhase.playing ∧
      s.players.get? s.currentPlayerIndex = some p ∧
      p.id = playerId ∧
      p.hand.find? (fun x => decide (x.id = cardId)) = some c ∧
      isValidPlay s playerId c = true ∧
      s' = { s with
        players := s.players.set s.currentPlayerIndex
          { p with hand := p.hand.filter (fun x => decide (x.id ≠ cardId)) },
        currentTrick := { s.currentTrick with
          cards := s.currentTrick.cards ++ [{ playerId := playerId, card := c }],
          leadingSuit :=
            match s.currentTrick.leadingSuit with
            | some ls => some ls
            | none => some c.suit },
        currentPlayerIndex := (s.currentPlayerIndex + 1) % 4,
        heartsBroken := s.heartsBroken || trickContainsHearts { s.currentTrick with
          cards := s.currentTrick.cards ++ [{ playerId := playerId, card := c }],
          leadingSuit :=
            match s.currentTrick.leadingSuit with
            | some ls => some ls
            | none => some c.suit } } := by
  unfold playCard at h
  split at h
  · exact Except.noConfusion h
  case isFalse hphase =>
    split at h
    · exact Except.noConfusion h
    case h_2 p hget =>
      split at h
      · exact Except.noConfusion h
      case isFalse hid =>
        split at h
        · exact Except.noConfusion h
        case h_2 c hfind =>
          split at h
          · exact Except.noConfusion h
          case isFalse hvalid =>
            exact ⟨p, c, not_not.mp hphase, hget, not_not.mp hid, hfind,
              Bool.not_not_eq.mp (by simpa using hvalid), (Except.ok.inj h).symm⟩

/-- `applyScores` never touches `heartsBroken`. -/
lemma applyScores_heartsBroken (s : GameState) :
    (applyScores s).heartsBroken = s.heartsBroken := rfl

/-- `completeTrick` never touches `heartsBroken`. -/
lemma completeTrick_heartsBroken {s s' : GameState}
    (h : completeTrick s = Except.ok s') : s'.heartsBroken = s.heartsBroken := by
  unfold completeTrick at h
  split at h
  · exact Except.noConfusion h
  · split at h
    · exact Except.noConfusion h
    · dsimp only at h
      split at h
      · rw [← Except.ok.inj h]
        exact applyScores_heartsBroken _
      · rw [← Except.ok.inj h]

/-- C8: within a hand `heartsBroken` is monotone — no in-hand transition
(`playCard` or `completeTrick`) ever takes it from `true` back to `false`;
`playCard` sets it when the played card is a Heart; and only `startNewHand`
resets it to `false`. -/
theorem heartsBroken_monotone :
    (∀ s s', Step s s' → s.heartsBroken = true → s'.heartsBroken = true) ∧
    (∀ (s : GameState) (playerId cardId : String) (s' : GameState) (p : Player)
        (c : HeartsCard),
      s.players.get? s.currentPlayerIndex = some p →
      p.hand.find? (fun x => decide (x.id = cardId)) = some c →
      c.suit = Suit.hearts →
      playCard s playerId cardId = Except.ok s' →
      s'.heartsBroken = true) ∧
    (∀ (s : GameState) (shuffledDeck : List HeartsCard) (s' : GameState),
      startNewHand s shuffledDeck = Except.ok s' → s'.heartsBroken = false) := by
  refine ⟨?_, ?_, ?_⟩
  · intro s s' hstep hb
    cases hstep with
    | play playerId cardId h =>
      obtain ⟨p, c, _, _, _, _, _, hs'⟩ := playCard_ok_inv h
      rw [hs']
      dsimp only
      rw [Bool.or_eq_true]
      exact Or.inl hb
    | complete h =>
      rw [completeTrick_heartsBroken h, hb]
  · intro s playerId cardId s' p c hget hfind hsuit h
    obtain ⟨p', c', _, hget', _, hfind', _, hs'⟩ := playCard_ok_inv h
    rw [hget] at hget'
    cases hget'
    rw [hfind] at hfind'
    cases hfind'
    rw [hs']
    dsimp only
    rw [Bool.or_eq_true]
    right
    unfold trickContainsHearts
    rw [List.any_eq_true]
    exact ⟨{ playerId := playerId, card := c }, by simp, decide_eq_true hsuit⟩
  · intro s shuffledDeck s' h
    unfold startNewHand at h
    split at h
    · exact Except.noConfusion h
    · rw [← Except.ok.inj h]

/-- Witness for C8: playing the 2♥ breaks hearts; a step from an
already-broken state keeps hearts broken; `startNewHand` resets the flag. -/
theorem heartsBroken_monotone_witness :
    (playCard heartsPlayState "p0" "2h").map (fun st => st.heartsBroken)
      = Except.ok true ∧
    (playCard { heartsPlayState with heartsBroken := true } "p0" "2h").map
      (fun st => st.heartsBroken) = Except.ok true ∧
    (startNewHand handDoneState []).map (fun st => st.heartsBroken)
      = Except.ok false := by
  refine ⟨?_, ?_, ?_⟩
  · cases hok : playCard heartsPlayState "p0" "2h" with
    | error e => cases e <;> exact absurd hok (by decide)
    | ok st =>
      have hb := heartsBroken_monotone.2.1 heartsPlayState "p0" "2h" st
        { id := "p0", name := "A", hand := [mkCard "2h" Rank.two Suit.hearts],
          tricksTaken := [], score := 0, handScore := 0, selectedCards := [],
          isReady := false }
        (mkCard "2h" Rank.two Suit.hearts) rfl rfl rfl hok
      simp [Except.map, hb]
  · cases hok : playCard { heartsPlayState with heartsBroken := true } "p0" "2h" with
    | error e => cases e <;> exact absurd hok (by decide)
    | ok st =>
      have hb := heartsBroken_monotone.1 _ st (Step.play _ st "p0" "2h" hok) rfl
      simp [Except.map, hb]
  · cases hok : startNewHand handDoneState [] with
    | error e => cases e <;> exact absurd hok (by decide)
    | ok st =>
      have hb := heartsBroken_monotone.2.2 handDoneState [] st hok
      simp [Except.map, hb]

/-! ## Passing lemmas -/

lemma insertCard_perm (c : HeartsCard) (l : List HeartsCard) :
    (insertCard c l).Perm (c :: l) := by
  induction l with
  | nil => exact List.Perm.refl _
  | cons d rest ih =>
    unfold insertCard
    split
    · exact List.Perm.refl _
    · exact (List.Perm.cons d ih).trans (List.Perm.swap c d rest)

lemma sortHand_perm (l : List HeartsCard) : (sortHand l).Perm l := by
  induction l with
  | nil => exact List.Perm.refl _
  | cons c rest ih =>
    exact (insertCard_perm c (sortHand rest)).trans (List.Perm.cons c ih)

/-- The cards a player passes carry exactly the player's selected ids, in
selection order. -/
lemma passedCardsOf_map_id (p : Player)
    (hfound : ∀ cid ∈ p.selectedCards, ∃ c ∈ p.hand, c.id = cid) :
    (passedCardsOf p).map (fun c => c.id) = p.selectedCards := by
  unfold passedCardsOf
  have main : ∀ sel : List String, (∀ cid ∈ sel, ∃ c ∈ p.hand, c.id = cid) →
      ((sel.filterMap (fun cardId =>
        p.hand.find? (fun c => decide (c.id = cardId)))).map (fun c => c.id)) = sel := by
    intro sel
    induction sel with
    | nil => intro _; rfl
    | cons a t ih =>
      intro hf
      obtain ⟨c, hc, hcid⟩ := hf a (by simp)
      have hsome : (p.hand.find? (fun x => decide (x.id = a))).isSome :=
        List.find?_isSome.mpr ⟨c, hc, decide_eq_true hcid⟩
      cases hfind : p.hand.find? (fun x => decide (x.id = a)) with
      | none => rw [hfind] at hsome; simp at hsome
      | some d =>
        have hd : d.id = a := by simpa using List.find?_some hfind
        rw [List.filterMap_cons, hfind]
        simp only [List.map_cons, hd]
        rw [ih (fun cid hcid => hf cid (by simp [hcid]))]
  exact main p.selectedCards hfound

/-- In a hand with distinct card ids, looking up a member card's id finds
that very card. -/
lemma find?_id_eq_self {hand : List HeartsCard} {x : HeartsCard}
    (hnd : (hand.map (fun c => c.id)).Nodup) (hx : x ∈ hand) :
    hand.find? (fun c => decide (c.id = x.id)) = some x := by
  induction hand with
  | nil => simp at hx
  | cons a t ih =>
    rw [List.map_cons, List.nodup_cons] at hnd
    rcases List.mem_cons.mp hx with rfl | hxt
    · rw [List.find?_cons_of_pos _ (by simp)]
    · by_cases ha : a.id = x.id
      · exfalso
        exact hnd.1 (ha ▸ List.mem_map.mpr ⟨x, hxt, rfl⟩)
      · rw [List.find?_cons_of_neg _ (by simpa using ha)]
        exact ih hnd.2 hxt

/-- Under distinct hand ids and distinct in-hand selections, the passed
cards are exactly the hand cards whose ids were selected. -/
lemma passedCardsOf_perm_filter (p : Player)
    (hH : (p.hand.map (fun c => c.id)).Nodup) (hS : p.selectedCards.Nodup)
    (hfound : ∀ cid ∈ p.selectedCards, ∃ c ∈ p.hand, c.id = cid) :
    (passedCardsOf p).Perm
      (p.hand.filter (fun c => p.selectedCards.contains c.id)) := by
  have hids := passedCardsOf_map_id p hfound
  have hpnd : (passedCardsOf p).Nodup := by
    have : ((passedCardsOf p).map (fun c => c.id)).Nodup := hids ▸ hS
    exact this.of_map _
  have hfnd : (p.hand.filter (fun c => p.selectedCards.contains c.id)).Nodup :=
    ((hH.of_map _).filter _)
  rw [List.perm_ext_iff_of_nodup hpnd hfnd]
  intro x
  constructor
  · intro hxp
    obtain ⟨cid, hcid, hfind⟩ := List.mem_filterMap.mp hxp
    have hxid : x.id = cid := by simpa using List.find?_some hfind
    have hxh : x ∈ p.hand := List.mem_of_find?_eq_some hfind
    exact List.mem_filter.mpr ⟨hxh, by simp [hxid, hcid]⟩
  · intro hxf
    obtain ⟨hxh, hxsel⟩ := List.mem_filter.mp hxf
    have hxsel' : x.id ∈ p.selectedCards := by simpa using hxsel
    exact List.mem_filterMap.mpr ⟨x.id, hxsel', find?_id_eq_self hH hxh⟩

/-- Removing the selected cards and listing the passed cards partitions the
hand: the hand shrinks by exactly its passed cards. -/
lemma hand_perm_kept_passed (p : Player)
    (hH : (p.hand.map (fun c => c.id)).Nodup) (hS : p.selectedCards.Nodup)
    (hfound : ∀ cid ∈ p.selectedCards, ∃ c ∈ p.hand, c.id = cid) :
    p.hand.Perm
      ((p.hand.filter (fun c => decide (¬ p.selectedCards.contains c.id)))
        ++ passedCardsOf p) := by
  have hpart := List.filter_append_perm
    (fun c => p.selectedCards.contains c.id) p.hand
  have hkept : p.hand.filter (fun c => !(p.selectedCards.contains c.id))
      = p.hand.filter (fun c => decide (¬ p.selectedCards.contains c.id)) := by
    apply List.filter_congr
    intro c _
    simp
  have h1 : p.hand.Perm
      (p.hand.filter (fun c => p.selectedCards.contains c.id)
        ++ p.hand.filter (fun c => decide (¬ p.selectedCards.contains c.id))) := by
    rw [← hkept]
    exact hpart.symm
  refine h1.trans (List.perm_append_comm.trans ?_)
  exact List.Perm.append_left _ (passedCardsOf_perm_filter p hH hS hfound).symm

/-- C5: on a Passing-phase state with all 4 players ready and direction
Left, `executePass` computes all four exchanges simultaneously from the
pre-pass selections: player `i`'s 3 selected cards land exactly in the hand
of player `(i+1) % 4`, every hand loses exactly its own 3 passed cards and
gains the sender's 3 (size unchanged), all selections and ready flags are
reset, and the phase becomes Playing; if some player is not ready it fails
with `PlayersNotReady`. -/
theorem executePass_spec (s : GameState) (p0 p1 p2 p3 : Player)
    (hplayers : s.players = [p0, p1, p2, p3])
    (hphase : s.phase = GamePhase.passing)
    (hdir : s.passDirection = PassDirection.left) :
    (¬ (∀ p ∈ s.players, p.isReady = true) →
      executePass s = Except.error HeartsError.playersNotReady) ∧
    ((∀ p ∈ s.players, p.isReady = true) →
      (∀ p ∈ s.players, p.selectedCards.length = 3 ∧ p.selectedCards.Nodup ∧
        (∀ cid ∈ p.selectedCards, ∃ c ∈ p.hand, c.id = cid) ∧
        (p.hand.map (fun c => c.id)).Nodup) →
      ∃ q0 q1 q2 q3,
        executePass s = Except.ok { s with
          players := [q0, q1, q2, q3], phase := GamePhase.playing } ∧
        (q0.selectedCards = [] ∧ q0.isReady = false ∧
         q1.selectedCards = [] ∧ q1.isReady = false ∧
         q2.selectedCards = [] ∧ q2.isReady = false ∧
         q3.selectedCards = [] ∧ q3.isReady = false) ∧
        (q1.hand.Perm
          ((p1.hand.filter (fun c => decide (¬ p1.selectedCards.contains c.id)))
            ++ passedCardsOf p0) ∧
         q2.hand.Perm
          ((p2.hand.filter (fun c => decide (¬ p2.selectedCards.contains c.id)))
            ++ passedCardsOf p1) ∧
         q3.hand.Perm
          ((p3.hand.filter (fun c => decide (¬ p3.selectedCards.contains c.id)))
            ++ passedCardsOf p2) ∧
         q0.hand.Perm
          ((p0.hand.filter (fun c => decide (¬ p0.selectedCards.contains c.id)))
            ++ passedCardsOf p3)) ∧
        ((passedCardsOf p0).map (fun c => c.id) = p0.selectedCards ∧
         (passedCardsOf p1).map (fun c => c.id) = p1.selectedCards ∧
         (passedCardsOf p2).map (fun c => c.id) = p2.selectedCards ∧
         (passedCardsOf p3).map (fun c => c.id) = p3.selectedCards) ∧
        (p0.hand.Perm
          ((p0.hand.filter (fun c => decide (¬ p0.selectedCards.contains c.id)))
            ++ passedCardsOf p0) ∧
         p1.hand.Perm
          ((p1.hand.filter (fun c => decide (¬ p1.selectedCards.contains c.id)))
            ++ passedCardsOf p1) ∧
         p2.hand.Perm
          ((p2.hand.filter (fun c => decide (¬ p2.selectedCards.contains c.id)))
            ++ passedCardsOf p2) ∧
         p3.hand.Perm
          ((p3.hand.filter (fun c => decide (¬ p3.selectedCards.contains c.id)))
            ++ passedCardsOf p3)) ∧
        (q0.hand.length = p0.hand.length ∧ q1.hand.length = p1.hand.length ∧
         q2.hand.length = p2.hand.length ∧ q3.hand.length = p3.hand.length)) := by
  constructor
  · intro hnr
    unfold executePass
    rw [if_neg (by simp [hphase])]
    rw [if_pos (fun hall => hnr (fun p hp => by
      simpa using List.all_eq_true.mp hall p hp))]
  · intro hready hsel
    have hm0 : p0 ∈ s.players := by rw [hplayers]; simp
    have hm1 : p1 ∈ s.players := by rw [hplayers]; simp
    have hm2 : p2 ∈ s.players := by rw [hplayers]; simp
    have hm3 : p3 ∈ s.players := by rw [hplayers]; simp
    obtain ⟨hL0, hN0, hF0, hH0⟩ := hsel p0 hm0
    obtain ⟨hL1, hN1, hF1, hH1⟩ := hsel p1 hm1
    obtain ⟨hL2, hN2, hF2, hH2⟩ := hsel p2 hm2
    obtain ⟨hL3, hN3, hF3, hH3⟩ := hsel p3 hm3
    have key0 := hand_perm_kept_passed p0 hH0 hN0 hF0
    have key1 := hand_perm_kept_passed p1 hH1 hN1 hF1
    have key2 := hand_perm_kept_passed p2 hH2 hN2 hF2
    have key3 := hand_perm_kept_passed p3 hH3 hN3 hF3
    have ids0 := passedCardsOf_map_id p0 hF0
    have ids1 := passedCardsOf_map_id p1 hF1
    have ids2 := passedCardsOf_map_id p2 hF2
    have ids3 := passedCardsOf_map_id p3 hF3
    have hall : s.players.all (fun p => p.isReady) = true :=
      List.all_eq_true.mpr (fun p hp => by simpa using hready p hp)
    have hcompute : executePass s = Except.ok { s with
        players := [passPlayer p0 p3, passPlayer p1 p0, passPlayer p2 p1, passPlayer p3 p2],
        phase := GamePhase.playing } := by
      unfold executePass
      rw [if_neg (by simp [hphase]), if_neg (by simp [hall])]
      rw [hplayers, hdir]
      norm_num [mapWithIdx, getSender, passPlayer, passedCardsOf]
    have plen0 : (passedCardsOf p0).length = 3 := by
      have := congrArg List.length ids0
      rw [List.length_map] at this
      rw [this, hL0]
    have plen1 : (passedCardsOf p1).length = 3 := by
      have := congrArg List.length ids1
      rw [List.length_map] at this
      rw [this, hL1]
    have plen2 : (passedCardsOf p2).length = 3 := by
      have := congrArg List.length ids2
      rw [List.length_map] at this
      rw [this, hL2]
    have plen3 : (passedCardsOf p3).length = 3 := by
      have := congrArg List.length ids3
      rw [List.length_map] at this
      rw [this, hL3]
    have klen0 : p0.hand.length
        = (p0.hand.filter (fun c => decide (¬ p0.selectedCards.contains c.id))).length + 3 := by
      have := key0.length_eq
      rwa [List.length_append, plen0] at this
    have klen1 : p1.hand.length
        = (p1.hand.filter (fun c => decide (¬ p1.selectedCards.contains c.id))).length + 3 := by
      have := key1.length_eq
      rwa [List.length_append, plen1] at this
    have klen2 : p2.hand.length
        = (p2.hand.filter (fun c => decide (¬ p2.selectedCards.contains c.id))).length + 3 := by
      have := key2.length_eq
      rwa [List.length_append, plen2] at this
    have klen3 : p3.hand.length
        = (p3.hand.filter (fun c => decide (¬ p3.selectedCards.contains c.id))).length + 3 := by
      have := key3.length_eq
      rwa [List.length_append, plen3] at this
    refine ⟨_, _, _, _, hcompute,
      ⟨rfl, rfl, rfl, rfl, rfl, rfl, rfl, rfl⟩,
      ⟨sortHand_perm _, sortHand_perm _, sortHand_perm _, sortHand_perm _⟩,
      ⟨ids0, ids1, ids2, ids3⟩,
      ⟨key0, key1, key2, key3⟩,
      ?_, ?_, ?_, ?_⟩
    · show (sortHand _).length = _
      rw [(sortHand_perm _).length_eq, List.length_append, plen3, klen0]
    · show (sortHand _).length = _
      rw [(sortHand_perm _).length_eq, List.length_append, plen0, klen1]
    · show (sortHand _).length = _
      rw [(sortHand_perm _).length_eq, List.length_append, plen1, klen2]
    · show (sortHand _).length = _
      rw [(sortHand_perm _).length_eq, List.length_append, plen2, klen3]

/-- Witness for C5 at the concrete passing table. -/
theorem executePass_spec_witness :
    (executePass passingState).map (fun st => st.phase) = Except.ok GamePhase.playing ∧
    (executePass passingState).map (fun st => st.players.map (fun q => q.isReady))
      = Except.ok [false, false, false, false] ∧
    (executePass passingState).map (fun st => st.players.map (fun q => q.hand.length))
      = Except.ok [4, 4, 4, 4] := by
  obtain ⟨q0, q1, q2, q3, hok, hres, hperm, hids, hkey, hl0, hl1, hl2, hl3⟩ :=
    (executePass_spec passingState passP0 passP1 passP2 passP3 rfl rfl rfl).2
      (by decide) (by decide)
  obtain ⟨r0s, r0r, r1s, r1r, r2s, r2r, r3s, r3r⟩ := hres
  refine ⟨?_, ?_, ?_⟩ <;> rw [hok]
  · rfl
  · simp [Except.map, r0r, r1r, r2r, r3r]
  · simp [Except.map, hl0, hl1, hl2, hl3, passP0, passP1, passP2, passP3, mkCard]

lemma cardsInPlay_length (s : GameState) :
    (cardsInPlay s).length
      = (s.players.map (fun p => p.hand.length)).sum + s.currentTrick.cards.length
          + (s.completedTricks.map (fun t => t.cards.length)).sum := by
  unfold cardsInPlay
  rw [List.length_append, List.length_append, List.length_flatten, List.length_flatten,
    List.map_map, List.map_map]
  simp [trickCards, Function.comp_def]

/-- Looking a card up by id and filtering that id out split a
distinct-id hand. -/
lemma find?_filter_perm {hand : List HeartsCard} {cardId : String} {c : HeartsCard}
    (hnd : (hand.map (fun x => x.id)).Nodup)
    (hf : hand.find? (fun x => decide (x.id = cardId)) = some c) :
    hand.Perm (c :: hand.filter (fun x => decide (x.id ≠ cardId))) := by
  induction hand with
  | nil => simp at hf
  | cons a t ih =>
    rw [List.map_cons, List.nodup_cons] at hnd
    by_cases ha : a.id = cardId
    · rw [List.find?_cons_of_pos _ (by simpa using ha)] at hf
      have hac : a = c := by simpa using hf
      subst hac
      have hfilter : t.filter (fun x => decide (x.id ≠ cardId)) = t := by
        apply List.filter_eq_self.mpr
        intro x hx
        have : x.id ≠ cardId := by
          intro hxe
          exact hnd.1 (by rw [ha, ← hxe]; exact List.mem_map.mpr ⟨x, hx, rfl⟩)
        simpa using this
      rw [List.filter_cons_of_neg (by simpa using ha), hfilter]
    · rw [List.find?_cons_of_neg _ (by simpa using ha)] at hf
      rw [List.filter_cons_of_pos (by simpa using ha)]
      exact ((ih hnd.2 hf).cons a).trans (List.Perm.swap c a _)

/-- Replacing one player's record exchanges exactly the two hand values in
the flattened hands. -/
lemma flatten_set_swap (l : List Player) (i : Nat) (p p' : Player)
    (h : l.get? i = some p) :
    (((l.set i p').map (fun q => q.hand)).flatten ++ p.hand).Perm
      ((l.map (fun q => q.hand)).flatten ++ p'.hand) := by
  induction l generalizing i with
  | nil => simp at h
  | cons a t ih =>
    cases i with
    | zero =>
      have hap : a = p := by simpa using h
      subst hap
      simp only [List.set_cons_zero, List.map_cons, List.flatten_cons]
      have h1 : ((p'.hand ++ (t.map (fun q => q.hand)).flatten) ++ a.hand).Perm
          (a.hand ++ (p'.hand ++ (t.map (fun q => q.hand)).flatten)) :=
        List.perm_append_comm
      have h2 : (a.hand ++ (p'.hand ++ (t.map (fun q => q.hand)).flatten)).Perm
          (a.hand ++ ((t.map (fun q => q.hand)).flatten ++ p'.hand)) :=
        List.Perm.append_left _ List.perm_append_comm
      have h3 : a.hand ++ ((t.map (fun q => q.hand)).flatten ++ p'.hand)
          = (a.hand ++ (t.map (fun q => q.hand)).flatten) ++ p'.hand :=
        (List.append_assoc _ _ _).symm
      exact h1.trans (h3 ▸ h2)
    | succ n =>
      have hn : t.get? n = some p := by simpa using h
      simp only [List.set_cons_succ, List.map_cons, List.flatten_cons]
      rw [List.append_assoc, List.append_assoc]
      exact List.Perm.append_left _ (ih n hn)

/-- A player-wise update that never touches hands leaves the mapped hands
unchanged. -/
lemma map_hand_map_eq (l : List Player) (f : Player → Player)
    (hf : ∀ p, (f p).hand = p.hand) :
    (l.map f).map (fun q => q.hand) = l.map (fun q => q.hand) := by
  rw [List.map_map]
  apply List.map_congr_left
  intro q _
  exact hf q

/-- A successful `playCard` permutes the cards in play (one card moves from
the hand to the current trick). -/
lemma playCard_conserves {s s' : GameState} {playerId cardId : String}
    (h : playCard s playerId cardId = Except.ok s')
    (hn : ((cardsInPlay s).map (fun c => c.id)).Nodup) :
    (cardsInPlay s').Perm (cardsInPlay s) := by
  obtain ⟨p, c, hphase, hget, hpid, hfind, hvalid, hs'⟩ := playCard_ok_inv h
  have hpmem : p ∈ s.players := List.get?_mem hget
  have hsubl : p.hand.Sublist (s.players.map (fun q => q.hand)).flatten :=
    List.sublist_flatten_of_mem (List.mem_map.mpr ⟨p, hpmem, rfl⟩)
  have hflat_nodup :
      ((s.players.map (fun q => q.hand)).flatten.map (fun c => c.id)).Nodup := by
    unfold cardsInPlay at hn
    rw [List.map_append, List.map_append] at hn
    exact (hn.of_append_left).of_append_left
  have hhand_nodup : (p.hand.map (fun c => c.id)).Nodup :=
    hflat_nodup.sublist (hsubl.map _)
  have hsplit := find?_filter_perm hhand_nodup hfind
  have hswap := flatten_set_swap s.players s.currentPlayerIndex p
    { p with hand := p.hand.filter (fun x => decide (x.id ≠ cardId)) } hget
  rw [hs']
  unfold cardsInPlay trickCards
  dsimp only
  rw [List.map_append]
  have h1 : ((((s.players.set s.currentPlayerIndex
        { p with hand := p.hand.filter (fun x => decide (x.id ≠ cardId)) }).map
          (fun q => q.hand)).flatten
      ++ [c])
      ++ p.hand.filter (fun x => decide (x.id ≠ cardId))).Perm
      ((s.players.map (fun q => q.hand)).flatten
        ++ p.hand.filter (fun x => decide (x.id ≠ cardId))) := by
    rw [List.append_assoc]
    exact ((List.Perm.append_left _ hsplit.symm).trans hswap)
  have key := (List.perm_append_right_iff _).mp h1
  have hmain : ((((s.players.set s.currentPlayerIndex
        { p with hand := p.hand.filter (fun x => decide (x.id ≠ cardId)) }).map
          (fun q => q.hand)).flatten)
      ++ (s.currentTrick.cards.map (fun tc => tc.card) ++ [c])).Perm
      ((s.players.map (fun q => q.hand)).flatten
        ++ s.currentTrick.cards.map (fun tc => tc.card)) := by
    refine (List.Perm.append_left _ List.perm_append_comm).trans ?_
    rw [← List.append_assoc]
    exact key.append (List.Perm.refl _)
  exact hmain.append (List.Perm.refl _)

/-- A successful `completeTrick` either ends the hand (phase `HandComplete`
or `GameOver`) or keeps the phase and permutes the cards in play (the trick
moves from `currentTrick` to `completedTricks`). -/
lemma completeTrick_phase_or_conserves {s s' : GameState}
    (h : completeTrick s = Except.ok s') :
    (s'.phase = GamePhase.handComplete ∨ s'.phase = GamePhase.gameOver) ∨
    (s'.phase = s.phase ∧ (cardsInPlay s').Perm (cardsInPlay s)) := by
  unfold completeTrick at h
  split at h
  · exact Except.noConfusion h
  · split at h
    · exact Except.noConfusion h
    case h_2 w hw =>
      dsimp only at h
      split at h
      · left
        rw [← Except.ok.inj h]
        unfold applyScores
        dsimp only
        split
        · right; rfl
        · left; rfl
      · right
        rw [← Except.ok.inj h]
        refine ⟨rfl, ?_⟩
        unfold cardsInPlay trickCards
        dsimp only
        rw [map_hand_map_eq _ _ (fun p => by
          by_cases hq : p.id = w <;> simp [hq])]
        rw [List.map_append, List.flatten_append]
        simp only [List.map_cons, List.map_nil, List.flatten_cons, List.flatten_nil,
          List.append_nil, emptyTrick, List.nil_append]
        rw [List.append_assoc]
        exact List.Perm.append_left _ List.perm_append_comm

/-- C1: card conservation is an invariant of the Playing phase — from any
conserved state, every state reached through in-hand transitions that is in
the Playing phase again accounts for exactly 52 cards, with no card id
duplicated across the hands, the current trick and the completed tricks. -/
theorem card_conservation (s0 s : GameState)
    (h0 : conserved s0)
    (hreach : Relation.ReflTransGen Step s0 s)
    (hphase : s.phase = GamePhase.playing) :
    conserved s := by
  have hI : ∀ t, Relation.ReflTransGen Step s0 t →
      (t.phase = GamePhase.playing → conserved t) := by
    intro t hr
    induction hr with
    | refl => intro _; exact h0
    | tail hr' hstep ih =>
      intro hcp
      cases hstep with
      | play playerId cardId hok =>
        obtain ⟨p, c, hbphase, _, _, _, _, _⟩ := playCard_ok_inv hok
        have hb := ih hbphase
        have hperm := playCard_conserves hok hb.2
        constructor
        · have hlen := hperm.length_eq
          rw [cardsInPlay_length, cardsInPlay_length] at hlen
          rw [hlen]
          exact hb.1
        · exact ((hperm.map (fun c => c.id)).nodup_iff).mpr hb.2
      | complete hok =>
        rcases completeTrick_phase_or_conserves hok with hor | ⟨hph, hperm⟩
        · exfalso
          rcases hor with h1 | h1 <;> rw [h1] at hcp <;> exact GamePhase.noConfusion hcp
        · have hbp := hph ▸ hcp
          have hb := ih hbp
          constructor
          · have hlen := hperm.length_eq
            rw [cardsInPlay_length, cardsInPlay_length] at hlen
            rw [hlen]
            exact hb.1
          · exact ((hperm.map (fun c => c.id)).nodup_iff).mpr hb.2
  exact hI s hreach hphase

/-- Witness for C1: after the opening play of the 2♣ from a conserved
52-card deal, the reached state still accounts for exactly 52 cards with no
duplicate id. -/
theorem card_conservation_witness :
    (playCard fullHandsState "p0" "c2").map (fun st =>
      (st.players.map (fun p => p.hand.length)).sum + st.currentTrick.cards.length
        + (st.completedTricks.map (fun t => t.cards.length)).sum) = Except.ok 52 ∧
    (playCard fullHandsState "p0" "c2").map (fun st =>
      decide (((cardsInPlay st).map (fun c => c.id)).Nodup)) = Except.ok true := by
  cases hok : playCard fullHandsState "p0" "c2" with
  | error e => cases e <;> exact absurd hok (by decide)
  | ok st =>
    have hphase : st.phase = GamePhase.playing := by
      obtain ⟨p, c, _, _, _, _, _, hs'⟩ := playCard_ok_inv hok
      rw [hs']
      rfl
    have hc := card_conservation fullHandsState st ⟨by decide, by decide⟩
      (Relation.ReflTransGen.single (Step.play _ _ _ _ hok)) hphase
    exact ⟨by simp [Except.map, hc.1], by simp [Except.map, decide_eq_true hc.2]⟩
